import Mathlib

/-!
Shallow embedding of `example_pet_strongly_convex.py` (SPDHG PET benchmark).

The script runs five algorithm variants (deterministic PDHG, uniform SPDHG
with 10 and 50 subsets, Pesquet-Repetti with 10 and 50 subsets), calibrates
step sizes from cached operator-norm estimates and strong-convexity moduli,
computes or loads a saddle-point target, and post-processes the recorded
traces into (clamped) relative-error series.  Floating-point scalars are
modelled as real numbers; the NaN sentinel used by the post-processing is
modelled as `none : Option ℝ`; the on-disk norm cache is modelled as a
function from subset count to the cached list of norms.
-/

namespace SpdhgPet

/-- The five algorithm variants run by the script (keys of `nsub`, line 224). -/
inductive Alg
  | pdhg
  | spdhg_uni10
  | spdhg_uni50
  | pesquet_uni10
  | pesquet_uni50
  deriving DecidableEq

/-- Number of subsets for each algorithm (line 224-225). -/
def nsub : Alg → ℕ
  | .pdhg => 1
  | .spdhg_uni10 => 10
  | .spdhg_uni50 => 50
  | .pesquet_uni10 => 10
  | .pesquet_uni50 => 50

/-- `nepoch = 100` (line 37). -/
def nepoch : ℕ := 100

/-- `niter_target = 2000` (line 38): iteration budget of the target run. -/
def niter_target : ℕ := 2000

/-- `niter[alg] = nepoch * nsub[alg]` (line 230). -/
def niter (a : Alg) : ℕ := nepoch * nsub a

/-- `iter_save[alg] = range(0, niter[alg] + 1, nsub[alg])` (line 231):
the iteration indices at which the callback records a snapshot. -/
def iter_save (a : Alg) : List ℕ :=
  (List.range (niter a / nsub a + 1)).map (fun k => k * nsub a)

/-- `rho = 0.99` (line 132): square root of the step size upper bound. -/
noncomputable def rho : ℝ := 99 / 100

/-- `np.min` over a list of reals (`mu_f = np.min(mu_i)`, line 136);
the `[]` case is junk (numpy raises there). -/
noncomputable def listMin : List ℝ → ℝ
  | [] => 0
  | x :: xs => xs.foldl min x

/-- Python `max` over a list of reals (`kappa_max = max(kappa)`, line 276);
the `[]` case is junk (Python raises there). -/
noncomputable def listMax : List ℝ → ℝ
  | [] => 0
  | x :: xs => xs.foldl max x

/-- `kappa = np.sqrt(1 + normA[0]**2 / (mu_g * mu_f) / rho**2)`
(lines 153 and 266, deterministic PDHG). -/
noncomputable def detKappa (mu_f mu_g nA : ℝ) : ℝ :=
  Real.sqrt (1 + nA ^ 2 / (mu_g * mu_f) / rho ^ 2)

/-- `sigma = 1 / ((kappa - 1) * mu_f)` (lines 154 and 269). -/
noncomputable def detSigma (mu_f mu_g nA : ℝ) : ℝ :=
  1 / ((detKappa mu_f mu_g nA - 1) * mu_f)

/-- `tau = 1 / ((kappa - 1) * mu_g)` (lines 155 and 270). -/
noncomputable def detTau (mu_f mu_g nA : ℝ) : ℝ :=
  1 / ((detKappa mu_f mu_g nA - 1) * mu_g)

/-- `theta = 1 - 2 / (1 + kappa)` (lines 156 and 271). -/
noncomputable def detTheta (mu_f mu_g nA : ℝ) : ℝ :=
  1 - 2 / (1 + detKappa mu_f mu_g nA)

/-- The per-run algorithm configuration chosen at lines 264-287:
subset-selection probabilities `prob_subset`, per-dual-block probabilities
`prob`, per-dual-block step sizes `sigma`, primal step `tau`, and the
extrapolation parameter `theta` (`none` models Python `None`, to which
`theta` is reset at line 240 before each run). -/
structure Config where
  prob_subset : List ℝ
  prob : List ℝ
  sigma : List ℝ
  tau : ℝ
  theta : Option ℝ

/-- `kappa = [np.sqrt(1 + normAi**2 / (mu_g * mui) / rho**2)
for normAi, mui in zip(normA, mu_i)]` (lines 274-275). -/
noncomputable def spdhgKappa (mu_g : ℝ) (normA mus : List ℝ) : List ℝ :=
  (normA.zip mus).map (fun p => Real.sqrt (1 + p.1 ^ 2 / (mu_g * p.2) / rho ^ 2))

/-- `kappa_max = max(kappa)` (line 276). -/
noncomputable def spdhgKappaMax (mu_g : ℝ) (normA mus : List ℝ) : ℝ :=
  listMax (spdhgKappa mu_g normA mus)

/-- Which norm-cache file each variant loads (lines 249-253): `pdhg` and
`spdhg` use `norms_{n}subsets.npy` with `n = nsub[alg]`, while `pesquet`
always uses the 1-subset file. -/
def normFileSubsets : Alg → ℕ
  | .pdhg => nsub .pdhg
  | .spdhg_uni10 => nsub .spdhg_uni10
  | .spdhg_uni50 => nsub .spdhg_uni50
  | .pesquet_uni10 => 1
  | .pesquet_uni50 => 1

/-- The `spdhg` parameter branch (lines 273-281). -/
noncomputable def spdhgBranch (n m : ℕ) (mus : List ℝ) (mu_g : ℝ) (normA : List ℝ) : Config where
  prob_subset := List.replicate n (1 / (n : ℝ))
  prob := List.replicate m (1 / (n : ℝ))
  sigma := mus.map (fun mui => 1 / ((spdhgKappaMax mu_g normA mus - 1) * mui))
  tau := 1 / (((n : ℝ) * spdhgKappaMax mu_g normA mus + (n : ℝ) - 2) * mu_g)
  theta := some (1 - 2 / ((n : ℝ) + (n : ℝ) * spdhgKappaMax mu_g normA mus))

/-- The `pesquet` parameter branch (lines 283-287); `theta` keeps the `None`
it was reset to at line 240 since this branch never assigns it. -/
noncomputable def pesquetBranch (n m : ℕ) (nA0 : ℝ) : Config where
  prob_subset := List.replicate n (1 / (n : ℝ))
  prob := List.replicate m (1 / (n : ℝ))
  sigma := List.replicate m (rho / nA0)
  tau := rho / nA0
  theta := none

/-- The per-algorithm parameter selection (lines 249-253 for the norm file
and 264-287 for the branches).  `m` is `Y.size` (the number of dual blocks),
`mus` the list `mu_i` of per-block strong-convexity moduli (line 135),
`mu_g` the regularizer modulus (line 137), and `cache k` the content of
`norms_{k}subsets.npy`.  `mu_f = np.min(mu_i)` (line 136). -/
noncomputable def chooseParameters (m : ℕ) (mus : List ℝ) (mu_g : ℝ)
    (cache : ℕ → List ℝ) (a : Alg) : Config :=
  match a with
  | .pdhg =>
      { prob_subset := [1]
        prob := List.replicate m 1
        sigma := List.replicate m
          (detSigma (listMin mus) mu_g ((cache (normFileSubsets .pdhg)).getD 0 0))
        tau := detTau (listMin mus) mu_g ((cache (normFileSubsets .pdhg)).getD 0 0)
        theta := some
          (detTheta (listMin mus) mu_g ((cache (normFileSubsets .pdhg)).getD 0 0)) }
  | .spdhg_uni10 =>
      spdhgBranch (nsub .spdhg_uni10) m mus mu_g (cache (normFileSubsets .spdhg_uni10))
  | .spdhg_uni50 =>
      spdhgBranch (nsub .spdhg_uni50) m mus mu_g (cache (normFileSubsets .spdhg_uni50))
  | .pesquet_uni10 =>
      pesquetBranch (nsub .pesquet_uni10) m ((cache (normFileSubsets .pesquet_uni10)).getD 0 0)
  | .pesquet_uni50 =>
      pesquetBranch (nsub .pesquet_uni50) m ((cache (normFileSubsets .pesquet_uni50)).getD 0 0)

/-- One snapshot recorded by `CallbackStore` (lines 205-214): the objective
value and the primal/dual/total squared half-distances to the saddle point. -/
structure Record where
  obj : ℝ
  dist : ℝ
  dist_x : ℝ
  dist_y : ℝ

/-- Default record used for out-of-range indexing in the model. -/
noncomputable def dRec : Record := ⟨0, 0, 0, 0⟩

/-- The quality measures handled by the analysis stage: the four keys stored
by `CallbackStore` plus the derived `obj_rel` (lines 340-353). -/
inductive Meas
  | obj
  | dist
  | dist_x
  | dist_y
  | obj_rel

/-- Entry `k` of the resorted series for one measure: `out_v[a][k][meas]`
for the stored measures (line 345) and
`(out_v[a][k].obj - obj_opt) / (out_v[a][0].obj - obj_opt)` for `obj_rel`
(lines 352-353). -/
noncomputable def measValue (out : List Record) (objOpt : ℝ) (meas : Meas) (k : ℕ) : ℝ :=
  match meas with
  | .obj => (out.getD k dRec).obj
  | .dist => (out.getD k dRec).dist
  | .dist_x => (out.getD k dRec).dist_x
  | .dist_y => (out.getD k dRec).dist_y
  | .obj_rel => ((out.getD k dRec).obj - objOpt) / ((out.getD 0 dRec).obj - objOpt)

/-- The resort loop (lines 335-353): for each algorithm and measure, an array
of length `K = len(iter_save_v[a])` whose `k`-th entry is `measValue`. -/
noncomputable def resorted (out : Alg → List Record) (objOpt : ℝ) (a : Alg) (meas : Meas) : List ℝ :=
  (List.range (iter_save a).length).map (measValue (out a) objOpt meas)

/-- The loop variable `K` leaks out of the resort loop (line 338 sets it per
algorithm, line 357 reuses the last value): the clamping loop runs over
`range(K)` with `K = len(iter_save_v['pesquet_uni50'])`. -/
def Kleak : ℕ := (iter_save .pesquet_uni50).length

/-- The clamping loop body (lines 355-359): positions `k < K` whose value is
non-positive are replaced by NaN (`none`); other entries are kept. -/
noncomputable def clampNonPos (K : ℕ) (l : List ℝ) : List (Option ℝ) :=
  (List.range l.length).map
    (fun k => if k < K ∧ l.getD k 0 ≤ 0 then none else some (l.getD k 0))

/-- The fully post-processed series for one algorithm and measure:
resorting followed by the non-positive-to-NaN clamping with the leaked `K`. -/
noncomputable def finalMeasures (out : Alg → List Record) (objOpt : ℝ)
    (a : Alg) (meas : Meas) : List (Option ℝ) :=
  clampNonPos Kleak (resorted out objOpt a meas)

/-- The saddle-point target bundle saved/loaded at lines 177 and 187:
`(x_opt, y_opt, subx_opt, suby_opt, obj_opt)`. -/
structure Target (Xv Yv : Type) where
  x : Xv
  y : Yv
  subx : Xv
  suby : Yv
  obj : ℝ

/-- Target computation and caching (lines 140-188).  `cached` models the
presence/content of `target.npy`; `solve niter x0 y0` abstracts the external
`odl.solvers.pdhg` call (line 166) with its iteration budget and initial
iterates.  When no cache exists the target is computed by one deterministic
run of `niter_target` iterations from zero and the five-component bundle is
built (lines 158-178); otherwise the bundle is loaded unchanged (line 187). -/
def getTarget {Xv Yv : Type} (cached : Option (Target Xv Yv))
    (solve : ℕ → Xv → Yv → Xv × Yv) (adjA : Yv → Xv) (negX : Xv → Xv)
    (appA : Xv → Yv) (objFun : Xv → ℝ) (zeroX : Xv) (zeroY : Yv) : Target Xv Yv :=
  match cached with
  | some t => t
  | none =>
      let p := solve niter_target zeroX zeroY
      { x := p.1, y := p.2, subx := negX (adjA p.2), suby := appA p.1, obj := objFun p.1 }

/-- The per-run output bundle saved at lines 319-321:
`(iter_save[alg], niter[alg], x, trace, nsub[alg], theta)`. -/
structure OutputBundle (Xv : Type) where
  iters : List ℕ
  total : ℕ
  x : Xv
  trace : List Record
  nsubsets : ℕ
  theta : Option ℝ

/-- Construction of the saved per-run bundle (lines 319-321); its `theta`
slot holds whatever the parameter branch for `a` produced (lines 240 and
264-287). -/
noncomputable def savedBundle {Xv : Type} (m : ℕ) (mus : List ℝ) (mu_g : ℝ)
    (cache : ℕ → List ℝ) (a : Alg) (x : Xv) (trace : List Record) : OutputBundle Xv :=
  { iters := iter_save a
    total := niter a
    x := x
    trace := trace
    nsubsets := nsub a
    theta := (chooseParameters m mus mu_g cache a).theta }

/-- Modelled from the spec: the drivers `spdhg`/`spdhg_pesquet` (imported at
line 31 from a module of this repository that is not under `src/`) call
`fun_select(k)` once per iteration, each call drawing one subset index from
the process-wide random source (`np.random.choice`, line 294).  We model the
source as a state-passing draw function `choice n s` returning the chosen
index and the successor state; `selectDraws` chains `k` such draws. -/
def selectDraws {S : Type} (choice : ℕ → S → ℕ × S) (n : ℕ) : ℕ → S → List ℕ × S
  | 0, s => ([], s)
  | Nat.succ k, s =>
      let c := choice n s
      let r := selectDraws choice n k c.2
      (c.1 :: r.1, r.2)

/-- Modelled from the spec: one run's sequence of selected index subsets.
The harness re-seeds the source with the fixed seed 1807 before each run
(line 247, `np.random.seed(1807)`); if the norm cache for the run is absent,
the norm estimation (lines 255-259, `Ai.norm(estimate=True)`) consumes
randomness before iteration begins, modelled by `estState`; `fun_select`
then maps each draw through `sub2ind` (line 294), whose construction
(`misc.divide_1Darray_equally`, repository code not under `src/`) is kept
abstract. -/
def runSelections {S : Type} (seedF : ℕ → S) (choice : ℕ → S → ℕ × S)
    (estState : Alg → S → S) (sub2ind : Alg → ℕ → List ℕ)
    (cached : Alg → Bool) (a : Alg) : List (List ℕ) :=
  let s0 := seedF 1807
  let s1 := if cached a then s0 else estState a s0
  ((selectDraws choice (nsub a) (niter a) s1).1).map (sub2ind a)

/-! ### Helper lemmas -/

/-- Seed of a left `max` fold is below the fold. -/
lemma le_foldl_max (b : ℝ) (l : List ℝ) : b ≤ l.foldl max b := by
  induction l generalizing b with
  | nil => simp
  | cons x xs ih => exact le_trans (le_max_left b x) (ih (max b x))

/-- Every member of a list is below a left `max` fold over it. -/
lemma mem_le_foldl_max {x : ℝ} {l : List ℝ} (b : ℝ) (hx : x ∈ l) :
    x ≤ l.foldl max b := by
  induction l generalizing b with
  | nil => cases hx
  | cons y ys ih =>
      rcases List.mem_cons.mp hx with h1 | h2
      · subst h1
        exact le_trans (le_max_right b x) (le_foldl_max (max b x) ys)
      · exact ih (max b y) h2

/-- A left `max` fold is the seed or one of the list elements. -/
lemma foldl_max_mem (b : ℝ) (l : List ℝ) : l.foldl max b ∈ b :: l := by
  induction l generalizing b with
  | nil => simp
  | cons x xs ih =>
      have h := ih (max b x)
      rcases List.mem_cons.mp h with h1 | h2
      · rcases max_choice b x with hb | hx
        · exact List.mem_cons.mpr (Or.inl (by rw [List.foldl_cons, h1, hb]))
        · refine List.mem_cons.mpr (Or.inr (List.mem_cons.mpr (Or.inl ?_)))
          rw [List.foldl_cons, h1, hx]
      · exact List.mem_cons.mpr (Or.inr (List.mem_cons.mpr (Or.inr h2)))

/-- `listMax` bounds every element of the list. -/
lemma le_listMax {x : ℝ} {l : List ℝ} (hx : x ∈ l) : x ≤ listMax l := by
  cases l with
  | nil => cases hx
  | cons y ys =>
      rcases List.mem_cons.mp hx with h1 | h2
      · subst h1; exact le_foldl_max x ys
      · exact mem_le_foldl_max y h2

/-- `listMax` of a nonempty list is attained by one of its elements. -/
lemma listMax_mem {l : List ℝ} (h : l ≠ []) : listMax l ∈ l := by
  cases l with
  | nil => exact absurd rfl h
  | cons y ys => exact foldl_max_mem y ys

/-- Every algorithm records `nepoch + 1 = 101` snapshots. -/
lemma iter_save_length (a : Alg) : (iter_save a).length = nepoch + 1 := by
  cases a <;> rfl

/-- The leaked clamping bound equals the common snapshot count. -/
lemma Kleak_eq : Kleak = nepoch + 1 := iter_save_length .pesquet_uni50

/-- Indexing a mapped range with a default value. -/
lemma getD_range_map {α : Type} (f : ℕ → α) {n k : ℕ} (hk : k < n) (d : α) :
    ((List.range n).map f).getD k d = f k := by
  have h : k < ((List.range n).map f).length := by simpa using hk
  rw [List.getD_eq_getElem _ _ h]
  simp

/-- Cancellation shape of the step-size identities. -/
lemma one_div_mul_mul {x y : ℝ} (hx : x ≠ 0) (hy : y ≠ 0) :
    1 / (x * y) * y * x = 1 := by
  field_simp
  ring

/-- The deterministic `kappa` exceeds 1 whenever both moduli are positive and
the cached operator norm is nonzero. -/
lemma one_lt_detKappa {mu_f mu_g nA : ℝ} (hf : 0 < mu_f) (hg : 0 < mu_g)
    (hA : nA ≠ 0) : 1 < detKappa mu_f mu_g nA := by
  have hsq : 0 < nA ^ 2 := by positivity
  have hrho : 0 < rho ^ 2 := by norm_num [rho]
  have ht : 0 < nA ^ 2 / (mu_g * mu_f) / rho ^ 2 :=
    div_pos (div_pos hsq (mul_pos hg hf)) hrho
  have h1 : (1 : ℝ) = Real.sqrt 1 := (Real.sqrt_one).symm
  rw [detKappa, h1]
  exact Real.sqrt_lt_sqrt (by norm_num) (by linarith)

/-! ### Claim theorems -/

/-- Claim C7: with no cached target artifact, the harness computes the saddle
point by one deterministic PDHG run of `niter_target = 2000` iterations
starting from zero and builds the five-component bundle
`(x*, y*, -adjoint(y*), A(x*), obj_fun(x*))`; with a cached artifact, the
bundle is returned unchanged with no recomputation. -/
theorem target_compute_and_cache (Xv Yv : Type) (solve : ℕ → Xv → Yv → Xv × Yv)
    (adjA : Yv → Xv) (negX : Xv → Xv) (appA : Xv → Yv) (objFun : Xv → ℝ)
    (zeroX : Xv) (zeroY : Yv) :
    niter_target = 2000 ∧
    getTarget none solve adjA negX appA objFun zeroX zeroY =
      { x := (solve 2000 zeroX zeroY).1
        y := (solve 2000 zeroX zeroY).2
        subx := negX (adjA (solve 2000 zeroX zeroY).2)
        suby := appA (solve 2000 zeroX zeroY).1
        obj := objFun (solve 2000 zeroX zeroY).1 } ∧
    ∀ t : Target Xv Yv, getTarget (some t) solve adjA negX appA objFun zeroX zeroY = t :=
  ⟨rfl, rfl, fun _ => rfl⟩

/-- Claim C8: for every algorithm variant, the subset-selection probability
vector has exactly `nsub a` entries, each equal to `1 / nsub a`, and sums to
1 (exactly, in the real-number model). -/
theorem prob_subset_valid (m : ℕ) (mus : List ℝ) (mu_g : ℝ)
    (cache : ℕ → List ℝ) (a : Alg) :
    (chooseParameters m mus mu_g cache a).prob_subset.length = nsub a ∧
    (∀ p ∈ (chooseParameters m mus mu_g cache a).prob_subset, p = 1 / (nsub a : ℝ)) ∧
    (chooseParameters m mus mu_g cache a).prob_subset.sum = 1 := by
  cases a <;>
    refine ⟨by simp [chooseParameters, spdhgBranch, pesquetBranch, nsub], ?_, ?_⟩ <;>
    simp [chooseParameters, spdhgBranch, pesquetBranch, nsub, List.sum_replicate] <;>
    norm_num

/-- Claim C9: the persisted output bundles of the Pesquet-Repetti variants
hold the `None` sentinel in their extrapolation-parameter slot, while the
other variants supply a number there. -/
theorem pesquet_theta_none (Xv : Type) (m : ℕ) (mus : List ℝ) (mu_g : ℝ)
    (cache : ℕ → List ℝ) (x : Xv) (tr : List Record) :
    (savedBundle m mus mu_g cache .pesquet_uni10 x tr).theta = none ∧
    (savedBundle m mus mu_g cache .pesquet_uni50 x tr).theta = none ∧
    ((savedBundle m mus mu_g cache .pdhg x tr).theta).isSome = true ∧
    ((savedBundle m mus mu_g cache .spdhg_uni10 x tr).theta).isSome = true ∧
    ((savedBundle m mus mu_g cache .spdhg_uni50 x tr).theta).isSome = true :=
  ⟨rfl, rfl, rfl, rfl, rfl⟩

/-- Claim C5: the selection sequence of a run whose inputs are cached is the
pure function of the fixed seed 1807, the subset count and the iteration
budget given by `selectDraws`; consequently two executions of the same
variant with identical cached inputs and budget (even if their
norm-estimation randomness or the cache state of other variants differs)
select the identical sequence of subsets. -/
theorem two_run_determinism {S : Type} (seedF : ℕ → S) (choice : ℕ → S → ℕ × S)
    (est est' : Alg → S → S) (sub2ind : Alg → ℕ → List ℕ)
    (cached cached' : Alg → Bool) (a : Alg)
    (h : cached a = true) (h' : cached' a = true) :
    runSelections seedF choice est sub2ind cached a =
      ((selectDraws choice (nsub a) (niter a) (seedF 1807)).1).map (sub2ind a) ∧
    runSelections seedF choice est sub2ind cached a =
      runSelections seedF choice est' sub2ind cached' a := by
  constructor <;> simp [runSelections, h, h']

/-- Witness for C5 at a concrete pseudo-random source and sampler. -/
theorem two_run_determinism_witness :
    runSelections (id : ℕ → ℕ) (fun n s => (s % n, s + 1)) (fun _ s => s + 7)
        (fun _ i => [i]) (fun _ => true) .pdhg =
      runSelections (id : ℕ → ℕ) (fun n s => (s % n, s + 1)) (fun _ s => s + 13)
        (fun _ i => [i]) (fun _ => true) .pdhg :=
  (two_run_determinism id (fun n s => (s % n, s + 1)) (fun _ s => s + 7)
    (fun _ s => s + 13) (fun _ i => [i]) (fun _ => true) (fun _ => true) .pdhg
    rfl rfl).2

/-- Claim C3: the non-accelerated Pesquet-Repetti variants read the 1-subset
norm cache even though their subset count exceeds 1, set every per-block dual
step and the primal step to `rho / normA[0]`, use uniform probabilities
`1 / n`, and set no extrapolation parameter. -/
theorem pesquet_calibration (m : ℕ) (mus : List ℝ) (mu_g : ℝ)
    (cache : ℕ → List ℝ) (a : Alg)
    (ha : a = .pesquet_uni10 ∨ a = .pesquet_uni50) :
    normFileSubsets a = 1 ∧ 1 < nsub a ∧
    (chooseParameters m mus mu_g cache a).sigma =
      List.replicate m (rho / (cache 1).getD 0 0) ∧
    (chooseParameters m mus mu_g cache a).tau = rho / (cache 1).getD 0 0 ∧
    (chooseParameters m mus mu_g cache a).prob_subset =
      List.replicate (nsub a) (1 / (nsub a : ℝ)) ∧
    (chooseParameters m mus mu_g cache a).theta = none := by
  rcases ha with h | h <;> subst h <;>
    exact ⟨rfl, by norm_num [nsub], rfl, rfl, rfl, rfl⟩

/-- Witness for C3 at a concrete configuration. -/
theorem pesquet_calibration_witness :
    (chooseParameters 1 [1] 1 (fun k => List.replicate k (1 : ℝ)) .pesquet_uni10).tau =
      rho / ((fun k => List.replicate k (1 : ℝ)) 1).getD 0 0 :=
  (pesquet_calibration 1 [1] 1 (fun k => List.replicate k (1 : ℝ)) .pesquet_uni10
    (Or.inl rfl)).2.2.2.1

/-- Counterexample to claim C4: with `mu_g = 0` the uniform-stochastic branch
still silently produces a full configuration (per-block step sizes, an
extrapolation parameter and subset probabilities); no `ConfigurationError` is
raised. -/
theorem c4_no_configuration_error :
    (chooseParameters 2 [1, 1] 0 (fun k => List.replicate k (1 : ℝ))
        .spdhg_uni10).sigma.length = 2 ∧
    ((chooseParameters 2 [1, 1] 0 (fun k => List.replicate k (1 : ℝ))
        .spdhg_uni10).theta).isSome = true ∧
    (chooseParameters 2 [1, 1] 0 (fun k => List.replicate k (1 : ℝ))
        .spdhg_uni10).prob_subset.length = 10 := by
  refine ⟨?_, rfl, ?_⟩ <;> simp [chooseParameters, spdhgBranch, nsub]

/-- Claim C4 (amended): the per-algorithm parameter selection performs no
validation of the strong-convexity moduli: for every input, including
`mu_g = 0` or zero entries in `mu_i`, each accelerated branch returns a
complete configuration with a full-length step-size list and an
extrapolation parameter; there is no error path and no fallback to the
non-accelerated variant. -/
theorem calibration_no_validation (m : ℕ) (mus : List ℝ) (mu_g : ℝ)
    (cache : ℕ → List ℝ) :
    (chooseParameters m mus mu_g cache .pdhg).sigma.length = m ∧
    ((chooseParameters m mus mu_g cache .pdhg).theta).isSome = true ∧
    (chooseParameters m mus mu_g cache .spdhg_uni10).sigma.length = mus.length ∧
    ((chooseParameters m mus mu_g cache .spdhg_uni10).theta).isSome = true ∧
    (chooseParameters m mus mu_g cache .spdhg_uni50).sigma.length = mus.length ∧
    ((chooseParameters m mus mu_g cache .spdhg_uni50).theta).isSome = true := by
  refine ⟨?_, rfl, ?_, rfl, ?_, rfl⟩ <;> simp [chooseParameters, spdhgBranch]

/-- Counterexample to claim C1 as stated: with a zero cached operator norm,
`mu_f = mu_g = 1 > 0` yet `kappa = sqrt 1 = 1`, the divisions by
`(kappa - 1) * mu` degenerate, and `tau * mu_g * (kappa - 1) = 0 ≠ 1`. -/
theorem c1_identity_fails_at_zero_norm :
    0 < listMin [(1 : ℝ)] ∧ 0 < (1 : ℝ) ∧
    ¬((chooseParameters 1 [1] 1 (fun _ => [0]) .pdhg).tau * 1 *
        (detKappa (listMin [(1 : ℝ)]) 1
          (((fun _ : ℕ => [(0 : ℝ)]) (normFileSubsets .pdhg)).getD 0 0) - 1) = 1) := by
  have hmin : listMin [(1 : ℝ)] = 1 := rfl
  have h0 : ((fun _ : ℕ => [(0 : ℝ)]) (normFileSubsets .pdhg)).getD 0 0 = 0 := rfl
  have hk : detKappa 1 1 0 = 1 := by
    rw [detKappa]
    norm_num
  have htau : (chooseParameters 1 [1] 1 (fun _ => [0]) .pdhg).tau = 0 := by
    show detTau (listMin [(1 : ℝ)]) 1 (((fun _ : ℕ => [(0 : ℝ)]) (normFileSubsets .pdhg)).getD 0 0) = 0
    rw [hmin, h0, detTau, hk]
    norm_num
  refine ⟨by norm_num [hmin], one_pos, ?_⟩
  rw [htau, hmin, h0, hk]
  norm_num

/-- Claim C1 (amended): the deterministic PDHG calibrator computes
`kappa = sqrt(1 + normA[0]^2 / (mu_g * mu_f) / rho^2)`,
`sigma = 1 / ((kappa - 1) * mu_f)` for every dual block,
`tau = 1 / ((kappa - 1) * mu_g)` and `theta = 1 - 2 / (1 + kappa)`;
whenever `mu_f > 0`, `mu_g > 0` and additionally `normA[0] ≠ 0` (so that
`kappa > 1`), the identities `tau * mu_g * (kappa - 1) = 1` and
`sigma * mu_f * (kappa - 1) = 1` hold exactly. -/
theorem pdhg_calibration (m : ℕ) (mus : List ℝ) (mu_g : ℝ) (cache : ℕ → List ℝ)
    (hf : 0 < listMin mus) (hg : 0 < mu_g) (hA : (cache 1).getD 0 0 ≠ 0) :
    detKappa (listMin mus) mu_g ((cache 1).getD 0 0) =
      Real.sqrt (1 + ((cache 1).getD 0 0) ^ 2 / (mu_g * listMin mus) / rho ^ 2) ∧
    (chooseParameters m mus mu_g cache .pdhg).sigma =
      List.replicate m
        (1 / ((detKappa (listMin mus) mu_g ((cache 1).getD 0 0) - 1) * listMin mus)) ∧
    (chooseParameters m mus mu_g cache .pdhg).tau =
      1 / ((detKappa (listMin mus) mu_g ((cache 1).getD 0 0) - 1) * mu_g) ∧
    (chooseParameters m mus mu_g cache .pdhg).theta =
      some (1 - 2 / (1 + detKappa (listMin mus) mu_g ((cache 1).getD 0 0))) ∧
    (chooseParameters m mus mu_g cache .pdhg).tau * mu_g *
      (detKappa (listMin mus) mu_g ((cache 1).getD 0 0) - 1) = 1 ∧
    ∀ s ∈ (chooseParameters m mus mu_g cache .pdhg).sigma,
      s * listMin mus * (detKappa (listMin mus) mu_g ((cache 1).getD 0 0) - 1) = 1 := by
  have hκ : 1 < detKappa (listMin mus) mu_g ((cache 1).getD 0 0) :=
    one_lt_detKappa hf hg hA
  have hκ1 : detKappa (listMin mus) mu_g ((cache 1).getD 0 0) - 1 ≠ 0 :=
    sub_ne_zero.mpr (ne_of_gt hκ)
  have hgne : mu_g ≠ 0 := ne_of_gt hg
  have hfne : listMin mus ≠ 0 := ne_of_gt hf
  refine ⟨rfl, rfl, rfl, rfl, ?_, ?_⟩
  · show detTau (listMin mus) mu_g ((cache 1).getD 0 0) * mu_g *
      (detKappa (listMin mus) mu_g ((cache 1).getD 0 0) - 1) = 1
    rw [detTau]
    exact one_div_mul_mul hκ1 hgne
  · intro s hs
    have hrep : s = detSigma (listMin mus) mu_g ((cache 1).getD 0 0) :=
      List.eq_of_mem_replicate hs
    rw [hrep, detSigma]
    exact one_div_mul_mul hκ1 hfne

/-- Witness for the amended claim C1 at a concrete configuration. -/
theorem pdhg_calibration_witness :
    (chooseParameters 1 [1] 1 (fun k => List.replicate k (1 : ℝ)) .pdhg).tau * 1 *
      (detKappa (listMin [(1 : ℝ)]) 1
        (((fun k => List.replicate k (1 : ℝ)) 1).getD 0 0) - 1) = 1 :=
  (pdhg_calibration 1 [1] 1 (fun k => List.replicate k (1 : ℝ))
    one_pos one_pos one_ne_zero).2.2.2.2.1

/-- Claim C2: the uniform-stochastic calibrator computes per-index
`kappa_i = sqrt(1 + normA_i^2 / (mu_g * mu_i) / rho^2)` (pairing the cached
per-subset norms with the per-block moduli), `kappa_max` as the maximum of
that list, uniform probabilities `1 / n`, per-block dual steps
`sigma_i = 1 / ((kappa_max - 1) * mu_i)`, primal step
`tau = 1 / ((n * kappa_max + n - 2) * mu_g)` and extrapolation
`theta = 1 - 2 / (n + n * kappa_max)`. -/
theorem spdhg_calibration (m : ℕ) (mus : List ℝ) (mu_g : ℝ)
    (cache : ℕ → List ℝ) (a : Alg)
    (ha : a = .spdhg_uni10 ∨ a = .spdhg_uni50) :
    spdhgKappa mu_g (cache (nsub a)) mus =
      List.zipWith (fun nAi mui => Real.sqrt (1 + nAi ^ 2 / (mu_g * mui) / rho ^ 2))
        (cache (nsub a)) mus ∧
    (∀ κ ∈ spdhgKappa mu_g (cache (nsub a)) mus,
      κ ≤ spdhgKappaMax mu_g (cache (nsub a)) mus) ∧
    (spdhgKappa mu_g (cache (nsub a)) mus ≠ [] →
      spdhgKappaMax mu_g (cache (nsub a)) mus ∈ spdhgKappa mu_g (cache (nsub a)) mus) ∧
    (chooseParameters m mus mu_g cache a).prob_subset =
      List.replicate (nsub a) (1 / (nsub a : ℝ)) ∧
    (chooseParameters m mus mu_g cache a).prob =
      List.replicate m (1 / (nsub a : ℝ)) ∧
    (chooseParameters m mus mu_g cache a).sigma =
      mus.map (fun mui =>
        1 / ((spdhgKappaMax mu_g (cache (nsub a)) mus - 1) * mui)) ∧
    (chooseParameters m mus mu_g cache a).tau =
      1 / (((nsub a : ℝ) * spdhgKappaMax mu_g (cache (nsub a)) mus +
        (nsub a : ℝ) - 2) * mu_g) ∧
    (chooseParameters m mus mu_g cache a).theta =
      some (1 - 2 / ((nsub a : ℝ) +
        (nsub a : ℝ) * spdhgKappaMax mu_g (cache (nsub a)) mus)) := by
  rcases ha with h | h <;> subst h <;>
    exact ⟨by simp [spdhgKappa, List.zip, List.map_zipWith],
      fun κ hκ => le_listMax hκ, fun hne => listMax_mem hne,
      rfl, rfl, rfl, rfl, rfl⟩

/-- Witness for C2 at a concrete configuration. -/
theorem spdhg_calibration_witness :
    (chooseParameters 1 [1] 1 (fun k => List.replicate k (1 : ℝ))
        .spdhg_uni10).prob_subset =
      List.replicate (nsub .spdhg_uni10) (1 / (nsub .spdhg_uni10 : ℝ)) :=
  (spdhg_calibration 1 [1] 1 (fun k => List.replicate k (1 : ℝ)) .spdhg_uni10
    (Or.inl rfl)).2.2.2.1

/-- Claim C6: for every algorithm and every recorded iteration index, the
post-processed relative objective error is
`(obj_k - obj*) / (obj_0 - obj*)`, with non-positive results replaced by the
not-a-number sentinel (`none`) rather than aborting. -/
theorem obj_rel_postprocessing (out : Alg → List Record) (objOpt : ℝ)
    (a : Alg) (k : ℕ) (hk : k < (iter_save a).length) :
    (finalMeasures out objOpt a .obj_rel).getD k (some 37) =
      if (((out a).getD k dRec).obj - objOpt) /
          (((out a).getD 0 dRec).obj - objOpt) ≤ 0
      then none
      else some ((((out a).getD k dRec).obj - objOpt) /
        (((out a).getD 0 dRec).obj - objOpt)) := by
  have hK : k < Kleak := by
    rw [Kleak_eq]
    rw [iter_save_length] at hk
    exact hk
  have hlen : k < (resorted out objOpt a .obj_rel).length := by
    simpa [resorted] using hk
  have hval : (resorted out objOpt a Meas.obj_rel).getD k 0 =
      measValue (out a) objOpt .obj_rel k := by
    rw [resorted]
    exact getD_range_map _ hk _
  rw [finalMeasures, clampNonPos, getD_range_map _ hlen, hval]
  simp [measValue, hK]

/-- Witness for C6 at a concrete trace. -/
theorem obj_rel_postprocessing_witness :
    (finalMeasures (fun _ => [⟨2, 1, 1, 1⟩]) 1 .pdhg .obj_rel).getD 0 (some 37) =
      some 1 := by
  have h := obj_rel_postprocessing (fun _ => [⟨2, 1, 1, 1⟩]) 1 .pdhg 0
    (by rw [iter_save_length]; norm_num)
  rw [h]
  norm_num

/-- Claim C10: the non-positive-to-NaN clamping is applied to every measure
series of every algorithm (objective, the three distances, and the relative
objective error): at every recorded index, a value `≤ 0` becomes the
not-a-number sentinel (`none`) and any other value is kept. -/
theorem clamp_all_measures (out : Alg → List Record) (objOpt : ℝ)
    (a : Alg) (meas : Meas) (k : ℕ) (hk : k < (iter_save a).length) :
    (finalMeasures out objOpt a meas).getD k (some 37) =
      if (resorted out objOpt a meas).getD k 0 ≤ 0 then none
      else some ((resorted out objOpt a meas).getD k 0) := by
  have hK : k < Kleak := by
    rw [Kleak_eq]
    rw [iter_save_length] at hk
    exact hk
  have hlen : k < (resorted out objOpt a meas).length := by
    simpa [resorted] using hk
  rw [finalMeasures, clampNonPos, getD_range_map _ hlen]
  simp [hK]

/-- Witness for C10 at a concrete trace with a negative recorded distance. -/
theorem clamp_all_measures_witness :
    (finalMeasures (fun _ => [⟨1, -1, 1, 1⟩]) 0 .spdhg_uni10 .dist).getD 0 (some 37) =
      none := by
  have h := clamp_all_measures (fun _ => [⟨1, -1, 1, 1⟩]) 0 .spdhg_uni10 .dist 0
    (by rw [iter_save_length]; norm_num)
  rw [h]
  have hv : (resorted (fun _ => [⟨1, -1, 1, 1⟩]) 0 .spdhg_uni10 .dist).getD 0 0 =
      (-1 : ℝ) := by
    rw [resorted, getD_range_map _ (by rw [iter_save_length]; norm_num)]
    simp [measValue]
  rw [hv]
  norm_num

end SpdhgPet
